import Mathlib

/-!
Verification of the extended-attribute identity/hash cache (`src/fruitmix/file/xstat.js`)
and the in-memory file tree (`src/fruitmix/file/fileData.js`, `node.js`) of this
repository, as a shallow embedding in Lean 4.

The filesystem entry under one path is modelled by `Entry` (its lstat kind,
basename, modification time, size) together with the persisted extended-attribute
blob (`Blob`).  JavaScript dynamic values that may appear inside the parsed blob
are modelled by `JVal`.  Asynchronous functions become pure state-passing
functions; a thrown error becomes an error value, and where the source mutates
state before throwing, the function returns the mutated state next to the error.
-/

namespace Fruitmix

/-- A JavaScript value as it can appear in the parsed attribute blob or as a
caller-supplied argument: a string, an integer number, a boolean, some other
value (non-integer number, object, array, null — identified by a tag so that
two distinct objects compare unequal, as JS `===` does), or `undefined`
(the result of reading an absent property). -/
inductive JVal where
  | jstr (s : String)
  | jint (n : Int)
  | jbool (b : Bool)
  | jother (tag : Nat)
  | jundefined
deriving DecidableEq, Repr

/-- Reading a property: an absent property reads as `undefined`. -/
def getProp (o : Option JVal) : JVal := o.getD .jundefined

/-- JS truthiness. (`jother` folds objects with `null`/`NaN`; in this
development truthiness is only ever tested on validated hash values, which are
nonempty strings, or on absent properties, so the conflation is inert.) -/
def truthy : JVal → Bool
  | .jstr s => s != ""
  | .jint n => n != 0
  | .jbool b => b
  | .jother _ => true
  | .jundefined => false

/-- Hexadecimal digit. -/
def isHexChar (c : Char) : Bool :=
  c.isDigit || (decide ('a' ≤ c) && decide (c ≤ 'f')) || (decide ('A' ≤ c) && decide (c ≤ 'F'))

/-- Modelled from the spec: `isSHA256` of the `lib/types` module (not among the
staged source files) — a well-formed SHA-256 digest is "32 bytes / 64 hex chars". -/
def isSHA256 (s : String) : Bool :=
  decide (s.length = 64) && s.toList.all isHexChar

/-- Modelled from the spec: `isUUID` of the `lib/types` module (not among the
staged source files) — canonical textual form of a 128-bit identifier:
8-4-4-4-12 hex groups separated by hyphens at positions 8, 13, 18, 23. -/
def isUUID (s : String) : Bool :=
  let cs := s.toList
  decide (cs.length = 36) &&
    (List.range 36).all fun i =>
      if i = 8 ∨ i = 13 ∨ i = 18 ∨ i = 23 then cs.getD i ' ' == '-'
      else isHexChar (cs.getD i ' ')

/-- `isUUID` applied to a dynamic value: false on anything but a string. -/
def isUUIDv : JVal → Bool
  | .jstr s => isUUID s
  | _ => false

/-- `isSHA256` applied to a dynamic value: false on anything but a string. -/
def isSHA256v : JVal → Bool
  | .jstr s => isSHA256 s
  | _ => false

/-- `Number.isInteger`: true exactly on integer numbers. -/
def isIntv : JVal → Bool
  | .jint _ => true
  | _ => false

/-- `parseMagic` (xstat.js line 22): a `file -b` output starting with
"JPEG image data" classifies as 'JPEG', anything else as the uninterested
magic version number 0. -/
def parseMagic (text : String) : JVal :=
  if text.startsWith "JPEG image data" then .jstr "JPEG" else .jint 0

/-- `isMagicUpToDate` (xstat.js line 26): an integer ≥ the uninterested
version 0, or the recognized classification 'JPEG'. -/
def isMagicUpToDate (magic : JVal) : Bool :=
  (match magic with | .jint n => decide (0 ≤ n) | _ => false)
    || decide (magic = .jstr "JPEG")

/-- The parsed attribute blob: the four data properties (each possibly absent)
and the presence flags of the three legacy ACL properties that the source
strips unconditionally. -/
structure Attr where
  uuid : Option JVal
  hash : Option JVal
  htime : Option JVal
  magic : Option JVal
  owner : Bool
  writelist : Bool
  readlist : Bool
deriving DecidableEq, Repr

/-- The persisted blob under the reserved attribute name: absent (xattr read
fails with ENODATA), present but not valid JSON (JSON.parse throws
SyntaxError), or parsed to an object. -/
inductive Blob where
  | absent
  | corrupt
  | attr (a : Attr)
deriving DecidableEq, Repr

/-- What lstat reports for the path: a directory, a regular file, or some
other kind of entry (symlink, socket, ...). -/
inductive FsKind where
  | dir
  | file
  | other
deriving DecidableEq, Repr

/-- One filesystem entry: its lstat data plus its persisted attribute blob.
Setting the attribute does not change the modification time. -/
structure Entry where
  kind : FsKind
  name : String
  mtime : Int
  size : Int
  blob : Blob
deriving DecidableEq, Repr

/-- The error taxonomy of xstat.js — `E.ENOTDIRFILE`, `E.ENOTFILE`,
`E.EINVAL`, `E.EINSTANCE`, `E.ETIMESTAMP` — plus `jsTypeError`, the
JavaScript TypeError that a strict-mode property assignment on a primitive
raises (xstat.js is an ES module, hence strict; see `readXstatInnerX`). -/
inductive XErr where
  | enotdirfile
  | enotfile
  | einval
  | einstance
  | etimestamp
  | jsTypeError
deriving DecidableEq, Repr

/-- Repair rule 1 (xstat.js lines 62-66): a missing or malformed uuid is
replaced by a freshly generated one, marking the record dirty. -/
def stepUuid (fresh : String) (p : Bool × Attr) : Bool × Attr :=
  if isUUIDv (getProp p.2.uuid) then p
  else (true, { p.2 with uuid := some (.jstr fresh) })

/-- The condition under which a persisted hash/htime pair is kept
(xstat.js lines 72-74, negated): well-formed digest, integer timestamp,
timestamp equal to the file's current modification time. -/
def validHashPair (a : Attr) (mtime : Int) : Bool :=
  isSHA256v (getProp a.hash) && isIntv (getProp a.htime)
    && decide (getProp a.htime = JVal.jint mtime)

/-- Repair rule 2 (xstat.js lines 71-79, files only): if either of
hash/htime is present but the pair is not valid, both are dropped. -/
def stepHash (isFile : Bool) (mtime : Int) (p : Bool × Attr) : Bool × Attr :=
  if isFile && (p.2.hash.isSome || p.2.htime.isSome) && !(validHashPair p.2 mtime)
  then (true, { p.2 with hash := none, htime := none })
  else p

/-- Repair rule 3 (xstat.js lines 81-84, files only): an out-of-date magic is
recomputed from the `file -b` output. -/
def stepMagic (isFile : Bool) (stdout : String) (p : Bool × Attr) : Bool × Attr :=
  if isFile && !(isMagicUpToDate (getProp p.2.magic))
  then (true, { p.2 with magic := some (parseMagic stdout) })
  else p

/-- Repair rule 4 (xstat.js lines 88-95): legacy owner/writelist/readlist
properties are stripped unconditionally. -/
def stepLegacy (p : Bool × Attr) : Bool × Attr :=
  if p.2.owner || p.2.writelist || p.2.readlist
  then (true, { p.2 with owner := false, writelist := false, readlist := false })
  else p

/-- The core of `readXstatAsync` (xstat.js lines 44-105), up to the point
where the repaired attr has been written back if dirty: returns the repaired
attr together with the possibly updated entry (`raw` mode returns exactly this
data, the summary mode builds an xstat from it).  `fresh` is the uuid that
`UUID.v4()` would generate on this call, `stdout` the output of `file -b`. -/
def readXstatInner (e : Entry) (fresh : String) (stdout : String) :
    Except XErr (Attr × Entry) :=
  if e.kind = .other then .error .enotdirfile
  else
    match e.blob with
    | .attr a =>
      let p := stepLegacy (stepMagic (decide (e.kind = .file)) stdout
                 (stepHash (decide (e.kind = .file)) e.mtime (stepUuid fresh (false, a))))
      .ok (p.2, if p.1 then { e with blob := .attr p.2 } else e)
    | _ =>
      -- missing or unparseable blob: treated as "no record", a fresh attr is
      -- built (with magic computed for files) and is always written back
      let a : Attr :=
        { uuid := some (.jstr fresh), hash := none, htime := none,
          magic := if e.kind = .file then some (parseMagic stdout) else none,
          owner := false, writelist := false, readlist := false }
      .ok (a, { e with blob := .attr a })

/-- The typed summary returned to callers (xstat.js lines 109-131):
directories get `{uuid, type, name, mtime}`, files additionally size, magic
and — only when the repaired attr still holds one — the hash. -/
structure Xstat where
  uuid : JVal
  type : String
  name : String
  mtime : Int
  size : Option Int
  magic : Option JVal
  hash : Option JVal
deriving DecidableEq, Repr

/-- `readXstatAsync` (xstat.js lines 44-132), summary mode. -/
def readXstatAsync (e : Entry) (fresh : String) (stdout : String) :
    Except XErr (Xstat × Entry) :=
  match readXstatInner e fresh stdout with
  | .error x => .error x
  | .ok (a, e1) =>
    match e1.kind with
    | .dir =>
      .ok ({ uuid := getProp a.uuid, type := "directory", name := e1.name,
             mtime := e1.mtime, size := none, magic := none, hash := none }, e1)
    | .file =>
      .ok ({ uuid := getProp a.uuid, type := "file", name := e1.name,
             mtime := e1.mtime, size := some e1.size,
             magic := some (getProp a.magic),
             hash := if truthy (getProp a.hash) then some (getProp a.hash) else none }, e1)
    | .other =>
      -- unreachable: the inner read already rejected this kind
      .error .enotdirfile

/-- `peekXattrAsync` (xstat.js lines 135-154): read-only; the attr is returned
exactly when it is present, parseable, carries a `hash` property that is a
well-formed digest, and its `htime` strictly equals the current modification
time; in every other case nothing is returned.  The entry is returned
untouched — the source contains no write. -/
def peekXattrAsync (e : Entry) : Except XErr (Option Attr) × Entry :=
  if e.kind ≠ .file then (.error .enotfile, e)
  else
    match e.blob with
    | .attr a =>
      if a.hash.isSome && isSHA256v (getProp a.hash)
          && decide (getProp a.htime = JVal.jint e.mtime)
      then (.ok (some a), e)
      else (.ok none, e)
    | _ => (.ok none, e)

/-- `updateFileHashAsync` (xstat.js lines 156-181): argument validation, a raw
read (which may itself repair and persist the record), the three guards, then
the commit of `{uuid, hash, htime, magic}` and the refreshed summary.  (The
source re-reads the blob into an unused variable after writing; that read has
no effect and is not modelled.) -/
def updateFileHashAsync (e : Entry) (uuid hash htime : JVal)
    (fresh : String) (stdout : String) : Except XErr Xstat × Entry :=
  if !(isSHA256v hash) || !(isIntv htime) then (.error .einval, e)
  else
    match readXstatInner e fresh stdout with
    | .error x => (.error x, e)
    | .ok (a, e1) =>
      if e1.kind ≠ .file then (.error .enotfile, e1)
      else if uuid ≠ getProp a.uuid then (.error .einstance, e1)
      else if htime ≠ .jint e1.mtime then (.error .etimestamp, e1)
      else
        let a2 : Attr :=
          { uuid := a.uuid, hash := some hash, htime := some htime,
            magic := a.magic, owner := false, writelist := false, readlist := false }
        (.ok { uuid := uuid, type := "file", name := e1.name, mtime := e1.mtime,
               size := some e1.size, magic := some (getProp a2.magic),
               hash := some hash },
         { e1 with blob := .attr a2 })

/-! ## The in-memory tree

`node.js` objects live on a heap; here the heap is a finite association list
from node ids (`Nat`) to node records, owned by the `FileData` aggregate
together with the uuid→node index (`Map` in the source, an association list
here).  An argument position that in JavaScript takes "any value, possibly not
a `Node`" is modelled by `Option Nat`: `none` stands for a value that is not a
node, `some i` for the node object `i` (a live `Node` object is always present
in the heap; the heap-miss branches below are unreachable and marked so). -/

/-- `Map.get`/`find?` on an association list (first binding wins; `mapSet`
and `mapDel` keep keys unique, as a JS `Map` does). -/
def mapGet {κ α : Type} [DecidableEq κ] (l : List (κ × α)) (k : κ) : Option α :=
  (l.find? (fun p => p.1 = k)).map (·.2)

/-- `Map.set`: replace the binding in place, or append a new one. -/
def mapSet {κ α : Type} [DecidableEq κ] (l : List (κ × α)) (k : κ) (v : α) :
    List (κ × α) :=
  match l with
  | [] => [(k, v)]
  | (k', v') :: t => if k' = k then (k, v) :: t else (k', v') :: mapSet t k v

/-- `Map.delete`: remove the binding, if any. -/
def mapDel {κ α : Type} [DecidableEq κ] (l : List (κ × α)) (k : κ) :
    List (κ × α) :=
  match l with
  | [] => []
  | (k', v') :: t => if k' = k then t else (k', v') :: mapDel t k

/-- A drive descriptor as the permission code reads it: access type (a string,
'private' or 'public' in healthy configurations), owner, write-list, read-list,
share-allowed flag and the reference tag. -/
structure Drive where
  uuid : String
  type : String
  owner : String
  writelist : List String
  readlist : List String
  shareAllowed : Bool
  ref : String
deriving DecidableEq, Repr

/-- One `Node` object: its uuid, its kind tag ('root', 'drive', 'directory' or
'file'), the parent link (`null` = `none`), the children collection (the
source deletes the array when it empties; the empty list plays both roles) and,
on drive nodes, the drive descriptor.

Modelled from the spec where the node subclasses are concerned: the
`DriveNode`/`DirectoryNode`/`FileNode` class files are not among the staged
sources; per the spec the uuid is "copied from the Extended Attribute Record at
creation" and drive nodes "additionally carry a `drive` descriptor". -/
structure NodeRec where
  uuid : String
  kind : String
  parent : Option Nat
  children : List Nat
  drive : Option Drive
deriving DecidableEq, Repr

/-- Errors and thrown values of the tree code. `noSuchChild` covers the two
`unsetChild` throws ('Node has no children' and 'Node has no such child' — the
empty children collection is deleted, so the two coincide here); `typeError`
is the JavaScript TypeError raised by calling a method of `undefined`;
`internal` marks heap misses that cannot arise for live objects; `fuelOut`
marks recursion fuel exhaustion (never hit with enough fuel). -/
inductive TErr where
  | alreadyAttached
  | notDirNode
  | alreadyDetached
  | noSuchChild
  | badXstat
  | typeError
  | enodedetached
  | invalidDriveType
  | enodenotfound
  | internal
  | fuelOut
deriving DecidableEq, Repr

/-- The Tree Owner (`FileData`): the root node's id, the heap of nodes, and
the uuid→node index. -/
structure FileData where
  rootId : Nat
  nodes : List (Nat × NodeRec)
  uuidMap : List (String × Nat)
deriving DecidableEq, Repr

/-- Heap read. -/
def getN (s : FileData) (i : Nat) : Option NodeRec := mapGet s.nodes i

/-- Heap write. -/
def setN (s : FileData) (i : Nat) (r : NodeRec) : FileData :=
  { s with nodes := mapSet s.nodes i r }

/-- `FileData.nodeAttached` (fileData.js lines 55-57): index insert. -/
def nodeAttached (s : FileData) (uuid : String) (i : Nat) : FileData :=
  { s with uuidMap := mapSet s.uuidMap uuid i }

/-- `FileData.nodeDetaching` (fileData.js lines 59-61): index remove. -/
def nodeDetaching (s : FileData) (uuid : String) : FileData :=
  { s with uuidMap := mapDel s.uuidMap uuid }

/-- `FileData.findNodeByUUID` (fileData.js lines 127-129): an index read. -/
def findNodeByUUID (s : FileData) (uuid : String) : Option Nat :=
  mapGet s.uuidMap uuid

/-- `Node.attach` (node.js lines 305-326): throws if the node is already
attached or if the parent argument is not a `Node`; otherwise sets the parent
link, pushes the node into the parent's children collection (`setChild`), and
inserts it into the index.  Both throws happen before any mutation, so the
state comes back unchanged on error. -/
def attach (s : FileData) (nid : Nat) (parentRef : Option Nat) :
    Option TErr × FileData :=
  match mapGet s.nodes nid with
  | none => (some .internal, s)  -- unreachable for a live object
  | some nd =>
    if nd.parent.isSome then (some .alreadyAttached, s)
    else
      match parentRef with
      | none => (some .notDirNode, s)
      | some pid =>
        match mapGet s.nodes pid with
        | none => (some .notDirNode, s)  -- not a live Node object
        | some _ =>
          let s1 := setN s nid { nd with parent := some pid }
          match mapGet s1.nodes pid with
          | some pd =>
            let s2 := setN s1 pid { pd with children := pd.children ++ [nid] }
            (none, nodeAttached s2 nd.uuid nid)
          | none => (some .internal, s1)  -- unreachable
/-- `Node.detach` (node.js lines 328-334): the source calls
`this.ctx.nodeDetaching(this)` — the index delete — *before* checking that the
node is attached, so a failing detach still returns the state with that delete
applied; then `unsetChild` removes the node from the parent's children
collection and the parent link is cleared. -/
def detach (s : FileData) (nid : Nat) : Option TErr × FileData :=
  match mapGet s.nodes nid with
  | none => (some .internal, s)  -- unreachable for a live object
  | some nd =>
    let s1 := nodeDetaching s nd.uuid
    match nd.parent with
    | none => (some .alreadyDetached, s1)
    | some pid =>
      match mapGet s1.nodes pid with
      | none => (some .internal, s1)  -- unreachable
      | some pd =>
        if pd.children.contains nid then
          let s2 := setN s1 pid { pd with children := pd.children.erase nid }
          match mapGet s2.nodes nid with
          | some nd2 => (none, setN s2 nid { nd2 with parent := none })
          | none => (some .internal, s2)  -- unreachable
        else (some .noSuchChild, s1)

/-- Current length of a node's children collection (0 when the collection is
absent). -/
def childLen (s : FileData) (nid : Nat) : Nat :=
  match getN s nid with
  | some nd => nd.children.length
  | none => 0

/-- The child at index `k` of the *current* children collection, `none` when
the index no longer exists (JavaScript `forEach` skips such holes). -/
def childAt (s : FileData) (nid : Nat) (k : Nat) : Option Nat :=
  match getN s nid with
  | some nd => nd.children.get? k
  | none => none

mutual
/-- `Node.postVisit` applying `detach`, as `FileData.deleteNode`
(fileData.js lines 117-122) does: visit the children first via
`Array.prototype.forEach` over the live children array, then detach the node
itself.  `forEach` captures the length once at the start and then, per index,
only calls the callback when that index still exists in the (mutating) array —
exactly the semantics modelled by `postDetachIdx`.  A thrown error aborts the
traversal and propagates.  `fuel` bounds the recursion depth. -/
def postDetachNode (fuel : Nat) (s : FileData) (nid : Nat) :
    Option TErr × FileData :=
  match fuel with
  | 0 => (some .fuelOut, s)
  | f + 1 =>
    let len := childLen s nid
    match postDetachIdx f s nid 0 len with
    | (some e, s1) => (some e, s1)
    | (none, s1) => detach s1 nid

/-- The `forEach` loop of `postVisit`: index `k` up to the captured length
`len`, reading the live array each step. -/
def postDetachIdx (fuel : Nat) (s : FileData) (nid k len : Nat) :
    Option TErr × FileData :=
  match fuel with
  | 0 => (some .fuelOut, s)
  | f + 1 =>
    if k < len then
      match childAt s nid k with
      | none => postDetachIdx f s nid (k + 1) len
      | some cid =>
        match postDetachNode f s cid with
        | (some e, s1) => (some e, s1)
        | (none, s1) => postDetachIdx f s1 nid (k + 1) len
    else (none, s)
end

/-- `FileData.deleteNode` (fileData.js lines 117-122):
`node.postVisit(n => n.detach())`. -/
def deleteNode (fuel : Nat) (s : FileData) (nid : Nat) : Option TErr × FileData :=
  postDetachNode fuel s nid

/-- The property read `this.root.getChilren` in `FileData.deleteDrives`
(fileData.js line 45): `Node` defines no property of that name (its method is
`getChildren`), so in JavaScript the read evaluates to `undefined` — here
`none`. -/
def rootGetChilren (_s : FileData) : Option (List Nat) := none

/-- `FileData.deleteDrives` (fileData.js lines 44-48).  The source reads
`this.root.getChilren` and immediately calls `.filter` on it; since that read
is `undefined` (see `rootGetChilren`), the call raises a TypeError before
anything is filtered or detached.  The `some` branch models the chain the
source spells out (filter the drive nodes whose uuid is among the deleted
descriptors, detach each); it is unreachable. -/
def deleteDrives (s : FileData) (drives : List Drive) : Option TErr × FileData :=
  match rootGetChilren s with
  | none => (some .typeError, s)
  | some cs =>
    let ds := drives.map (·.uuid)
    let sel := cs.filter fun cid =>
      match getN s cid with
      | some nd => ds.contains nd.uuid
      | none => false
    sel.foldl
      (fun acc cid =>
        match acc with
        | (some e, st) => (some e, st)
        | (none, st) => detach st cid)
      (none, s)

/-- The summary fields `FileData.createNode` consumes: the identity and the
type tag of a freshly read xstat. -/
structure TXstat where
  uuid : String
  type : String
deriving DecidableEq, Repr

/-- The `DirectoryNode`/`FileNode` constructors as `createNode` calls them.
Modelled from the spec (the subclass files are not staged): the uuid is copied
from the summary, the node starts detached with an empty children collection
and no drive descriptor; the kind tag records which class was constructed. -/
def mkChildNode (x : TXstat) : NodeRec :=
  { uuid := x.uuid, kind := x.type, parent := none, children := [],
    drive := none }

/-- `FileData.createNode` (fileData.js lines 92-110): dispatch on the
summary's type — 'directory' and 'file' build the corresponding node, any
other type throws `'bad xstat'` before anything is constructed or attached —
then attach the new node under `parent` and return its uuid.  `freshId` is the
heap id of the newly constructed object.

Modelled from the spec where the node subclasses are concerned (their files
are not staged): the constructors copy the uuid from the summary and start
detached, with an empty children collection and no drive descriptor. -/
def createNode (s : FileData) (parentRef : Option Nat) (x : TXstat)
    (freshId : Nat) : Except TErr String × FileData :=
  if x.type = "directory" ∨ x.type = "file" then
    let nd : NodeRec := mkChildNode x
    let s1 : FileData := { s with nodes := mapSet s.nodes freshId nd }
    match attach s1 freshId parentRef with
    | (some e, s2) => (.error e, s2)
    | (none, s2) => (.ok nd.uuid, s2)
  else (.error .badXstat, s)

/-- `Node.getDrive` (node.js lines 379-386): walk up from the node; the first
ancestor whose parent is the root node yields its `drive` property (which is
`undefined` — `none` — on non-drive nodes); falling off the tree throws
`ENODEDETACHED`.  `fuel` bounds the walk. -/
def getDrive (fuel : Nat) (s : FileData) (nid : Nat) :
    Except TErr (Option Drive) :=
  match fuel with
  | 0 => .error .fuelOut
  | f + 1 =>
    match getN s nid with
    | none => .error .internal  -- unreachable for a live object
    | some nd =>
      if nd.parent = some s.rootId then .ok nd.drive
      else
        match nd.parent with
        | none => .error .enodedetached
        | some pid => getDrive f s pid

/-- `FileData.userPermittedToRead` (fileData.js lines 140-151): resolve the
owning drive, then switch on its access type; reading `drive.type` when the
resolved property is `undefined` is itself a TypeError. -/
def userPermittedToRead (fuel : Nat) (s : FileData) (userUUID : String)
    (nid : Nat) : Except TErr Bool :=
  match getDrive fuel s nid with
  | .error x => .error x
  | .ok none => .error .typeError
  | .ok (some drive) =>
    if drive.type = "private" then .ok (decide (userUUID = drive.owner))
    else if drive.type = "public" then
      .ok (drive.writelist.contains userUUID || drive.readlist.contains userUUID)
    else .error .invalidDriveType

/-- `FileData.userPermittedToWrite` (fileData.js lines 160-171). -/
def userPermittedToWrite (fuel : Nat) (s : FileData) (userUUID : String)
    (nid : Nat) : Except TErr Bool :=
  match getDrive fuel s nid with
  | .error x => .error x
  | .ok none => .error .typeError
  | .ok (some drive) =>
    if drive.type = "private" then .ok (decide (userUUID = drive.owner))
    else if drive.type = "public" then .ok (drive.writelist.contains userUUID)
    else .error .invalidDriveType

/-- `FileData.userPermittedToShare` (fileData.js lines 180-191). -/
def userPermittedToShare (fuel : Nat) (s : FileData) (userUUID : String)
    (nid : Nat) : Except TErr Bool :=
  match getDrive fuel s nid with
  | .error x => .error x
  | .ok none => .error .typeError
  | .ok (some drive) =>
    if drive.type = "private" then .ok (decide (userUUID = drive.owner))
    else if drive.type = "public" then .ok drive.shareAllowed
    else .error .invalidDriveType



theorem validHashPair_congr {a b : Attr} (m : Int)
    (h1 : a.hash = b.hash) (h2 : a.htime = b.htime) :
    validHashPair a m = validHashPair b m := by
  simp [validHashPair, h1, h2]

theorem parseMagic_upToDate (s : String) : isMagicUpToDate (parseMagic s) = true := by
  unfold parseMagic
  split <;> simp [isMagicUpToDate]

theorem isSHA256_ne_empty {s : String} (h : isSHA256 s = true) : s ≠ "" := by
  intro he
  subst he
  simp [isSHA256] at h

theorem isSHA256v_truthy {v : JVal} (h : isSHA256v v = true) : truthy v = true := by
  cases v <;> simp [isSHA256v] at h ⊢
  case jstr s => simpa [truthy] using isSHA256_ne_empty h

set_option maxHeartbeats 1000000 in
theorem readXstatInner_file (e : Entry) (a : Attr) (fresh stdout : String)
    (hk : e.kind = .file) (hb : e.blob = .attr a) :
    ∃ a4, readXstatInner e fresh stdout = .ok (a4, { e with blob := .attr a4 }) ∧
      a4.uuid = (if isUUIDv (getProp a.uuid) then a.uuid else some (.jstr fresh)) ∧
      a4.hash = (if validHashPair a e.mtime then a.hash else none) ∧
      a4.htime = (if validHashPair a e.mtime then a.htime else none) ∧
      a4.magic = (if isMagicUpToDate (getProp a.magic) then a.magic
                  else some (parseMagic stdout)) ∧
      a4.owner = false ∧ a4.writelist = false ∧ a4.readlist = false := by
  obtain ⟨k, nm, mt, sz, bl⟩ := e
  obtain ⟨u, hs, ht, mg, ow, wl, rl⟩ := a
  simp only at hk hb
  subst hk
  subst hb
  simp only [readXstatInner, stepUuid, stepHash, stepMagic, stepLegacy, validHashPair]
  split_ifs <;> simp_all

set_option maxHeartbeats 1000000 in
theorem readXstatInner_dir (e : Entry) (a : Attr) (fresh stdout : String)
    (hk : e.kind = .dir) (hb : e.blob = .attr a) :
    ∃ a4, readXstatInner e fresh stdout = .ok (a4, { e with blob := .attr a4 }) ∧
      a4.uuid = (if isUUIDv (getProp a.uuid) then a.uuid else some (.jstr fresh)) ∧
      a4.hash = a.hash ∧ a4.htime = a.htime ∧ a4.magic = a.magic ∧
      a4.owner = false ∧ a4.writelist = false ∧ a4.readlist = false := by
  obtain ⟨k, nm, mt, sz, bl⟩ := e
  obtain ⟨u, hs, ht, mg, ow, wl, rl⟩ := a
  simp only at hk hb
  subst hk
  subst hb
  simp only [readXstatInner, stepUuid, stepHash, stepMagic, stepLegacy, validHashPair,
    decide_eq_true_eq, reduceCtorEq, decide_False, decide_True, Bool.false_and, Bool.and_false,
    if_false, Bool.or_false, Bool.false_or]
  norm_num
  split_ifs <;> simp_all

theorem readXstatInner_norec (e : Entry) (fresh stdout : String)
    (hk : e.kind ≠ .other) (hb : e.blob = .absent ∨ e.blob = .corrupt) :
    ∃ a0, readXstatInner e fresh stdout = .ok (a0, { e with blob := .attr a0 }) ∧
      a0.uuid = some (.jstr fresh) ∧ a0.hash = none ∧ a0.htime = none ∧
      a0.magic = (if e.kind = .file then some (parseMagic stdout) else none) ∧
      a0.owner = false ∧ a0.writelist = false ∧ a0.readlist = false := by
  refine ⟨{ uuid := some (.jstr fresh), hash := none, htime := none,
            magic := if e.kind = .file then some (parseMagic stdout) else none,
            owner := false, writelist := false, readlist := false },
          ?_, rfl, rfl, rfl, rfl, rfl, rfl, rfl⟩
  unfold readXstatInner
  rcases hb with hb | hb <;> rw [hb] <;> simp [hk]



/-- The shape every attr has after a repair pass, relative to the entry it was
read from: valid uuid, for files a hash/htime pair that is either absent or
currently valid and an up-to-date magic, and no legacy properties. -/
def NormalAttr (a : Attr) (kind : FsKind) (mtime : Int) : Prop :=
  isUUIDv (getProp a.uuid) = true ∧
  (kind = .file → (a.hash = none ∧ a.htime = none) ∨ validHashPair a mtime = true) ∧
  (kind = .file → isMagicUpToDate (getProp a.magic) = true) ∧
  a.owner = false ∧ a.writelist = false ∧ a.readlist = false

theorem readXstatInner_normal {e : Entry} {fresh stdout : String} {a : Attr} {e1 : Entry}
    (hu : isUUID fresh = true)
    (h : readXstatInner e fresh stdout = .ok (a, e1)) :
    NormalAttr a e.kind e.mtime ∧ e1 = { e with blob := .attr a } := by
  have hk : e.kind ≠ .other := by
    intro ho
    unfold readXstatInner at h
    rw [if_pos ho] at h
    exact Except.noConfusion h
  rcases hbl : e.blob with _ | _ | a0
  case absent | corrupt =>
    obtain ⟨b, hb, h1, h2, h3, h4, h5, h6, h7⟩ :=
      readXstatInner_norec e fresh stdout hk (by rw [hbl]; simp)
    rw [hb] at h
    simp only [Except.ok.injEq, Prod.mk.injEq] at h
    obtain ⟨rfl, rfl⟩ := h
    refine ⟨⟨?_, ?_, ?_, h5, h6, h7⟩, rfl⟩
    · simp [h1, getProp, isUUIDv, hu]
    · intro _; exact Or.inl ⟨h2, h3⟩
    · intro hf; simp [h4, hf, getProp, parseMagic_upToDate]
  case attr =>
    have hkk := hk
    cases hfd : e.kind
    case other => exact absurd hfd hk
    case dir =>
      obtain ⟨b, hb, h1, h2, h3, h4, h5, h6, h7⟩ := readXstatInner_dir e a0 fresh stdout hfd hbl
      rw [hb] at h
      simp only [Except.ok.injEq, Prod.mk.injEq] at h
      obtain ⟨rfl, rfl⟩ := h
      refine ⟨⟨?_, ?_, ?_, h5, h6, h7⟩, by rw [hfd]⟩
      · rw [h1]; split_ifs with hvv
        · exact hvv
        · simp [getProp, isUUIDv, hu]
      · intro hf; exact absurd hf (by simp)
      · intro hf; exact absurd hf (by simp)
    case file =>
      obtain ⟨b, hb, h1, h2, h3, h4, h5, h6, h7⟩ := readXstatInner_file e a0 fresh stdout hfd hbl
      rw [hb] at h
      simp only [Except.ok.injEq, Prod.mk.injEq] at h
      obtain ⟨rfl, rfl⟩ := h
      refine ⟨⟨?_, ?_, ?_, h5, h6, h7⟩, by rw [hfd]⟩
      · rw [h1]; split_ifs with hvv
        · exact hvv
        · simp [getProp, isUUIDv, hu]
      · intro _
        by_cases hv : validHashPair a0 e.mtime = true
        · right
          have hbh : b.hash = a0.hash := by rw [h2, if_pos hv]
          have hbt : b.htime = a0.htime := by rw [h3, if_pos hv]
          rw [validHashPair_congr e.mtime hbh hbt]
          exact hv
        · left
          exact ⟨by rw [h2, if_neg hv], by rw [h3, if_neg hv]⟩
      · intro _
        by_cases hm : isMagicUpToDate (getProp a0.magic) = true
        · rw [h4, if_pos hm]; exact hm
        · rw [h4, if_neg hm]; simp [getProp, parseMagic_upToDate]

set_option maxHeartbeats 1000000 in
theorem readXstatInner_clean (e : Entry) (f s : String) (a : Attr)
    (hk : e.kind ≠ .other) (hb : e.blob = .attr a) (hn : NormalAttr a e.kind e.mtime) :
    readXstatInner e f s = .ok (a, e) := by
  obtain ⟨hn1, hn2, hn3, hn4, hn5, hn6⟩ := hn
  obtain ⟨k, nm, mt, sz, bl⟩ := e
  simp only at hb hk hn1 hn2 hn3 ⊢
  subst hb
  cases k
  case other => exact absurd rfl hk
  case dir =>
    simp only [readXstatInner, stepUuid, stepHash, stepMagic, stepLegacy]
    split_ifs <;> simp_all
  case file =>
    rcases hn2 rfl with ⟨hh, ht⟩ | hv
    · simp only [readXstatInner, stepUuid, stepHash, stepMagic, stepLegacy]
      split_ifs <;> simp_all
    · simp only [readXstatInner, stepUuid, stepHash, stepMagic, stepLegacy]
      split_ifs <;> simp_all

theorem readXstatAsync_of_inner_dir {e : Entry} {f s : String} {a : Attr} {e1 : Entry}
    (h : readXstatInner e f s = .ok (a, e1)) (hk : e1.kind = .dir) :
    readXstatAsync e f s =
      .ok ({ uuid := getProp a.uuid, type := "directory", name := e1.name,
             mtime := e1.mtime, size := none, magic := none, hash := none }, e1) := by
  unfold readXstatAsync
  rw [h]
  simp only [hk]

theorem readXstatAsync_of_inner_file {e : Entry} {f s : String} {a : Attr} {e1 : Entry}
    (h : readXstatInner e f s = .ok (a, e1)) (hk : e1.kind = .file) :
    readXstatAsync e f s =
      .ok ({ uuid := getProp a.uuid, type := "file", name := e1.name,
             mtime := e1.mtime, size := some e1.size,
             magic := some (getProp a.magic),
             hash := if truthy (getProp a.hash) then some (getProp a.hash) else none }, e1) := by
  unfold readXstatAsync
  rw [h]
  simp only [hk]

theorem readXstatAsync_ok_inner {e : Entry} {f s : String} {x : Xstat} {e1 : Entry}
    (h : readXstatAsync e f s = .ok (x, e1)) :
    ∃ a, readXstatInner e f s = .ok (a, e1) ∧ x.uuid = getProp a.uuid := by
  unfold readXstatAsync at h
  rcases hi : readXstatInner e f s with _ | ⟨a, e2⟩ <;> rw [hi] at h
  · exact Except.noConfusion h
  · rcases hk : e2.kind with _ | _ | _ <;> simp only [hk] at h <;>
      [skip; skip; exact Except.noConfusion h] <;>
      simp only [Except.ok.injEq, Prod.mk.injEq] at h <;>
      obtain ⟨hx, he⟩ := h <;> exact ⟨a, by rw [he], by rw [← hx]⟩

/-- C2: for a regular file, the returned summary carries a hash exactly when
the persisted pair was valid, and a present-but-untrustworthy pair is dropped
(both fields together) in the record written back. -/
theorem readXstat_hash_trustworthy (e : Entry) (fresh stdout : String)
    (x : Xstat) (e1 : Entry)
    (hk : e.kind = .file)
    (h : readXstatAsync e fresh stdout = .ok (x, e1)) :
    (∀ v, x.hash = some v ↔
      ∃ a, e.blob = .attr a ∧ validHashPair a e.mtime = true ∧ v = getProp a.hash) ∧
    (∀ a, e.blob = .attr a → (a.hash.isSome = true ∨ a.htime.isSome = true) →
      validHashPair a e.mtime = false →
      ∃ a1, e1.blob = .attr a1 ∧ a1.hash = none ∧ a1.htime = none) := by
  rcases hbl : e.blob with _ | _ | a0
  case absent | corrupt =>
    obtain ⟨b, hb, h1, h2, h3, h4, h5, h6, h7⟩ :=
      readXstatInner_norec e fresh stdout (by rw [hk]; simp) (by rw [hbl]; simp)
    have hsum := readXstatAsync_of_inner_file hb hk
    rw [hsum] at h
    simp only [Except.ok.injEq, Prod.mk.injEq] at h
    obtain ⟨hxx, hee⟩ := h
    constructor
    · intro v
      constructor
      · intro hv
        rw [← hxx] at hv
        rw [h2] at hv
        simp [getProp, truthy] at hv
      · rintro ⟨a, ha, -, -⟩
        exact Blob.noConfusion ha
    · intro a ha
      exact Blob.noConfusion ha
  case attr =>
    obtain ⟨b, hb, h1, h2, h3, h4, h5, h6, h7⟩ := readXstatInner_file e a0 fresh stdout hk hbl
    have hsum := readXstatAsync_of_inner_file hb hk
    rw [hsum] at h
    simp only [Except.ok.injEq, Prod.mk.injEq] at h
    obtain ⟨hxx, hee⟩ := h
    by_cases hv : validHashPair a0 e.mtime = true
    · have hbh : b.hash = a0.hash := by rw [h2, if_pos hv]
      have hsha : isSHA256v (getProp a0.hash) = true := by
        have := hv
        unfold validHashPair at this
        exact (Bool.and_eq_true .. ▸ ((Bool.and_eq_true .. ▸ this).1)).1
      have htr : truthy (getProp a0.hash) = true := isSHA256v_truthy hsha
      constructor
      · intro v
        constructor
        · intro hvv
          rw [← hxx] at hvv
          rw [hbh, if_pos htr] at hvv
          exact ⟨a0, rfl, hv, (Option.some.injEq _ _ ▸ hvv).symm⟩
        · rintro ⟨a, ha, hva, hveq⟩
          have haa : a0 = a := by injection ha
          subst haa
          rw [← hxx, hbh, if_pos htr, hveq]
      · intro a ha hpres hvf
        have haa : a0 = a := by injection ha
        subst haa
        rw [hvf] at hv
        exact absurd hv (by simp)
    · have hvf : validHashPair a0 e.mtime = false := by
        cases hq : validHashPair a0 e.mtime
        · rfl
        · exact absurd hq hv
      have hbh : b.hash = none := by rw [h2, if_neg hv]
      have hbt : b.htime = none := by rw [h3, if_neg hv]
      constructor
      · intro v
        constructor
        · intro hvv
          rw [← hxx] at hvv
          rw [hbh] at hvv
          simp [getProp, truthy] at hvv
        · rintro ⟨a, ha, hva, -⟩
          have haa : a0 = a := by injection ha
          subst haa
          exact absurd hva hv
      · intro a ha hpres hvf2
        exact ⟨b, by rw [← hee], hbh, hbt⟩

/-- C8: peekHash never writes (the entry comes back untouched), fails with
NotRegularFile iff the path is not a regular file, and returns the record
exactly when the blob is present and parseable with a present, well-formed
hash whose htime strictly equals the current modification time; in every
other case on a regular file it returns nothing. -/
theorem peekXattr_spec (e : Entry) :
    (peekXattrAsync e).2 = e ∧
    ((peekXattrAsync e).1 = .error .enotfile ↔ e.kind ≠ .file) ∧
    (∀ r, (peekXattrAsync e).1 = .ok (some r) ↔
      (e.kind = .file ∧ e.blob = .attr r ∧ r.hash.isSome = true ∧
       isSHA256v (getProp r.hash) = true ∧ getProp r.htime = .jint e.mtime)) ∧
    (e.kind = .file →
      (¬ ∃ r, e.blob = .attr r ∧ r.hash.isSome = true ∧
          isSHA256v (getProp r.hash) = true ∧ getProp r.htime = .jint e.mtime) →
      (peekXattrAsync e).1 = .ok none) := by
  obtain ⟨k, nm, mt, sz, bl⟩ := e
  rcases bl with _ | _ | a <;> rcases k with _ | _ | _ <;>
    simp only [peekXattrAsync] <;> split_ifs <;> simp_all

theorem updateFileHash_einval {e : Entry} {uuid hash htime : JVal}
    {fresh stdout : String}
    (h : (isSHA256v hash && isIntv htime) = false) :
    updateFileHashAsync e uuid hash htime fresh stdout = (.error .einval, e) := by
  have hc : (!isSHA256v hash || !isIntv htime) = true := by
    rw [← Bool.not_and, h]
    rfl
  unfold updateFileHashAsync
  rw [hc]
  simp

theorem updateFileHash_inner_error {e : Entry} {uuid hash htime : JVal}
    {fresh stdout : String} {x : XErr}
    (hwf : (isSHA256v hash && isIntv htime) = true)
    (hi : readXstatInner e fresh stdout = .error x) :
    updateFileHashAsync e uuid hash htime fresh stdout = (.error x, e) := by
  have hc : (!isSHA256v hash || !isIntv htime) = false := by
    rw [← Bool.not_and, hwf]
    rfl
  unfold updateFileHashAsync
  rw [hc, hi]
  simp

theorem updateFileHash_inner_ok {e : Entry} {uuid hash htime : JVal}
    {fresh stdout : String} {a : Attr} {e1 : Entry}
    (hwf : (isSHA256v hash && isIntv htime) = true)
    (hi : readXstatInner e fresh stdout = .ok (a, e1)) :
    updateFileHashAsync e uuid hash htime fresh stdout =
      (if e1.kind ≠ .file then (.error .enotfile, e1)
       else if uuid ≠ getProp a.uuid then (.error .einstance, e1)
       else if htime ≠ .jint e1.mtime then (.error .etimestamp, e1)
       else
        (.ok { uuid := uuid, type := "file", name := e1.name, mtime := e1.mtime,
               size := some e1.size, magic := some (getProp a.magic),
               hash := some hash },
         { e1 with
           blob := .attr
             { uuid := a.uuid, hash := some hash, htime := some htime,
               magic := a.magic, owner := false, writelist := false,
               readlist := false } })) := by
  have hc : (!isSHA256v hash || !isIntv htime) = false := by
    rw [← Bool.not_and, hwf]
    rfl
  unfold updateFileHashAsync
  rw [hc, hi]
  simp

theorem readXstatInner_error_kind {e : Entry} {f s : String} {x : XErr}
    (hi : readXstatInner e f s = .error x) : e.kind = .other ∧ x = .enotdirfile := by
  by_cases hk : e.kind = .other
  · unfold readXstatInner at hi
    rw [if_pos hk] at hi
    exact ⟨hk, (Except.error.inj hi).symm⟩
  · unfold readXstatInner at hi
    rw [if_neg hk] at hi
    rcases hbl : e.blob with _ | _ | a0 <;> rw [hbl] at hi <;> exact Except.noConfusion hi

theorem readXstatInner_ok_entry {e : Entry} {f s : String} {a : Attr} {e1 : Entry}
    (h : readXstatInner e f s = .ok (a, e1)) : e1 = { e with blob := .attr a } := by
  have hk : e.kind ≠ .other := by
    intro ho
    unfold readXstatInner at h
    rw [if_pos ho] at h
    exact Except.noConfusion h
  rcases hbl : e.blob with _ | _ | a0
  case absent | corrupt =>
    obtain ⟨b, hb, -, -, -, -, -, -, -⟩ :=
      readXstatInner_norec e f s hk (by rw [hbl]; simp)
    rw [hb] at h
    simp only [Except.ok.injEq, Prod.mk.injEq] at h
    obtain ⟨rfl, rfl⟩ := h
    rfl
  case attr =>
    cases hfd : e.kind
    case other => exact absurd hfd hk
    case dir =>
      obtain ⟨b, hb, -, -, -, -, -, -, -⟩ := readXstatInner_dir e a0 f s hfd hbl
      rw [hb] at h
      simp only [Except.ok.injEq, Prod.mk.injEq] at h
      obtain ⟨rfl, rfl⟩ := h
      rw [hfd]
    case file =>
      obtain ⟨b, hb, -, -, -, -, -, -, -⟩ := readXstatInner_file e a0 f s hfd hbl
      rw [hb] at h
      simp only [Except.ok.injEq, Prod.mk.injEq] at h
      obtain ⟨rfl, rfl⟩ := h
      rw [hfd]

theorem readXstatInner_keeps_valid_pair {e : Entry} {f s : String} {a b : Attr} {e1 : Entry}
    (hbl : e.blob = .attr a) (hval : validHashPair a e.mtime = true)
    (h : readXstatInner e f s = .ok (b, e1)) :
    b.hash = a.hash ∧ b.htime = a.htime := by
  have hk : e.kind ≠ .other := by
    intro ho
    unfold readXstatInner at h
    rw [if_pos ho] at h
    exact Except.noConfusion h
  cases hfd : e.kind
  case other => exact absurd hfd hk
  case dir =>
    obtain ⟨b2, hb, -, h2, h3, -, -, -, -⟩ := readXstatInner_dir e a f s hfd hbl
    rw [hb] at h
    simp only [Except.ok.injEq, Prod.mk.injEq] at h
    obtain ⟨rfl, rfl⟩ := h
    exact ⟨h2, h3⟩
  case file =>
    obtain ⟨b2, hb, -, h2, h3, -, -, -, -⟩ := readXstatInner_file e a f s hfd hbl
    rw [hb] at h
    simp only [Except.ok.injEq, Prod.mk.injEq] at h
    obtain ⟨rfl, rfl⟩ := h
    exact ⟨by rw [h2, if_pos hval], by rw [h3, if_pos hval]⟩

/-- C1 (amended): commitHash fails with InvalidArgument on a malformed
hash/htime, with NotRegularEntry when the path is neither a directory nor a
regular file (the raw read raises it first), with NotRegularFile when the
path is a directory, with IdentityMismatch when the caller-supplied uuid
differs from the (repaired) on-disk uuid, with StaleTimestamp when the
caller-supplied htime differs from the file's current modification time; in
every failure case a prior valid persisted hash record is left untouched; on
success it persists {uuid, hash, htime, magic} and returns the refreshed
summary. -/
theorem updateFileHash_spec (e : Entry) (uuid hash htime : JVal)
    (fresh stdout : String) :
    ((isSHA256v hash && isIntv htime) = false →
      updateFileHashAsync e uuid hash htime fresh stdout = (.error .einval, e)) ∧
    ((isSHA256v hash && isIntv htime) = true → e.kind = .other →
      updateFileHashAsync e uuid hash htime fresh stdout = (.error .enotdirfile, e)) ∧
    ((isSHA256v hash && isIntv htime) = true → e.kind = .dir →
      (updateFileHashAsync e uuid hash htime fresh stdout).1 = .error .enotfile) ∧
    ((isSHA256v hash && isIntv htime) = true → e.kind = .file →
      ∀ a e1, readXstatInner e fresh stdout = .ok (a, e1) →
      (uuid ≠ getProp a.uuid →
        updateFileHashAsync e uuid hash htime fresh stdout = (.error .einstance, e1)) ∧
      (uuid = getProp a.uuid → htime ≠ .jint e.mtime →
        updateFileHashAsync e uuid hash htime fresh stdout = (.error .etimestamp, e1)) ∧
      (uuid = getProp a.uuid → htime = .jint e.mtime →
        updateFileHashAsync e uuid hash htime fresh stdout =
          (.ok { uuid := uuid, type := "file", name := e.name, mtime := e.mtime,
                 size := some e.size, magic := some (getProp a.magic),
                 hash := some hash },
           { e1 with
             blob := .attr
               { uuid := a.uuid, hash := some hash, htime := some htime,
                 magic := a.magic, owner := false, writelist := false,
                 readlist := false } }))) ∧
    (∀ a, e.blob = .attr a → validHashPair a e.mtime = true →
      ∀ x, (updateFileHashAsync e uuid hash htime fresh stdout).1 = .error x →
      ∃ a1, (updateFileHashAsync e uuid hash htime fresh stdout).2.blob = .attr a1 ∧
        a1.hash = a.hash ∧ a1.htime = a.htime) := by
  refine ⟨fun hwf => updateFileHash_einval hwf, ?_, ?_, ?_, ?_⟩
  · intro hwf hko
    have hi : readXstatInner e fresh stdout = .error .enotdirfile := by
      unfold readXstatInner
      rw [if_pos hko]
    exact updateFileHash_inner_error hwf hi
  · intro hwf hkd
    rcases hi : readXstatInner e fresh stdout with x | ⟨a, e1⟩
    · obtain ⟨hko, -⟩ := readXstatInner_error_kind hi
      rw [hkd] at hko
      exact absurd hko (by simp)
    · have he1 := readXstatInner_ok_entry hi
      have hk1 : e1.kind = .dir := by rw [he1]; exact hkd
      rw [updateFileHash_inner_ok hwf hi, if_pos (by rw [hk1]; simp)]
  · intro hwf hkf a e1 hi
    have he1 := readXstatInner_ok_entry hi
    have hk1 : e1.kind = .file := by rw [he1]; exact hkf
    have hrw := @updateFileHash_inner_ok e uuid hash htime fresh stdout a e1 hwf hi
    rw [if_neg (by rw [hk1]; simp)] at hrw
    refine ⟨?_, ?_, ?_⟩
    · intro hne
      rw [hrw, if_pos hne]
    · intro heq hne
      have hne1 : htime ≠ .jint e1.mtime := by rw [he1]; exact hne
      rw [hrw, if_neg (by simp [heq]), if_pos hne1]
    · intro heq hte
      have hte1 : htime = .jint e1.mtime := by rw [he1]; exact hte
      rw [hrw, if_neg (by simp [heq]), if_neg (by simp [hte1]), he1]
  · intro a hbl hval x hrx
    by_cases hwf : (isSHA256v hash && isIntv htime) = true
    · rcases hi : readXstatInner e fresh stdout with y | ⟨b, e1⟩
      · have hre := @updateFileHash_inner_error e uuid hash htime fresh stdout y hwf hi
        rw [hre]
        exact ⟨a, hbl, rfl, rfl⟩
      · have he1 := readXstatInner_ok_entry hi
        obtain ⟨hbh, hbt⟩ := readXstatInner_keeps_valid_pair hbl hval hi
        have hrw := @updateFileHash_inner_ok e uuid hash htime fresh stdout b e1 hwf hi
        rw [hrw] at hrx ⊢
        split_ifs at hrx ⊢
        all_goals exact ⟨b, by rw [he1], hbh, hbt⟩
    · have hwff : (isSHA256v hash && isIntv htime) = false := by
        cases hq : (isSHA256v hash && isIntv htime)
        · rfl
        · exact absurd hq hwf
      rw [updateFileHash_einval hwff]
      exact ⟨a, hbl, rfl, rfl⟩

/-! ### Concrete instances for the closed witnesses and counterexamples -/

/-- A well-formed uuid. -/
def uuidA : String := "00000000-0000-4000-8000-000000000000"

/-- Another well-formed uuid (a different fresh draw). -/
def uuidB : String := "11111111-1111-4111-8111-111111111111"

/-- A well-formed SHA-256 digest (64 hex characters). -/
def hashA : String :=
  "aaaaaaaaaaaaaaaaaaaaaaaaaaaaaaaaaaaaaaaaaaaaaaaaaaaaaaaaaaaaaaaa"

/-- A path that is neither a directory nor a regular file. -/
def entOther : Entry :=
  { kind := .other, name := "s", mtime := 5, size := 0, blob := .absent }

/-- A persisted record whose hash pair was taken at mtime 100. -/
def attrStale : Attr :=
  { uuid := some (.jstr uuidA), hash := some (.jstr hashA),
    htime := some (.jint 100), magic := some (.jint 0),
    owner := false, writelist := false, readlist := false }

/-- A regular file whose content changed after hashing: current mtime 101,
persisted htime 100 — the pair is no longer trustworthy. -/
def entStale : Entry :=
  { kind := .file, name := "a.txt", mtime := 101, size := 5, blob := .attr attrStale }

/-- The record after the repair drops the stale pair. -/
def attrDrop : Attr :=
  { uuid := some (.jstr uuidA), hash := none, htime := none,
    magic := some (.jint 0), owner := false, writelist := false, readlist := false }

/-- `entStale` after the repaired record is written back. -/
def entDrop : Entry := { entStale with blob := .attr attrDrop }

/-- The summary a read of `entStale` returns: no hash field. -/
def xstatDrop : Xstat :=
  { uuid := .jstr uuidA, type := "file", name := "a.txt", mtime := 101,
    size := some 5, magic := some (.jint 0), hash := none }

/-- A directory with no record yet. -/
def entC9 : Entry :=
  { kind := .dir, name := "d", mtime := 7, size := 0, blob := .absent }

/-- The record a first read of `entC9` creates (fresh uuid `uuidA`). -/
def attrC9 : Attr :=
  { uuid := some (.jstr uuidA), hash := none, htime := none, magic := none,
    owner := false, writelist := false, readlist := false }

/-- `entC9` with its fresh record persisted. -/
def entC9a : Entry := { entC9 with blob := .attr attrC9 }

/-- The summary both reads of `entC9` return. -/
def xstatC9 : Xstat :=
  { uuid := .jstr uuidA, type := "directory", name := "d", mtime := 7,
    size := none, magic := none, hash := none }

/-- C1 counterexample: on a path that is neither a directory nor a regular
file, commitHash with well-formed arguments fails with ENOTDIRFILE — raised
by the raw metadata read — and not with ENOTFILE as the claim states. -/
theorem updateFileHash_notRegularFile_cex :
    isSHA256v (.jstr hashA) = true ∧ isIntv (.jint 5) = true ∧
    entOther.kind ≠ .file ∧
    (updateFileHashAsync entOther (.jstr uuidA) (.jstr hashA) (.jint 5) uuidB "x").1
      = .error .enotdirfile ∧
    (updateFileHashAsync entOther (.jstr uuidA) (.jstr hashA) (.jint 5) uuidB "x").1
      ≠ .error .enotfile := by
  refine ⟨rfl, rfl, by decide, rfl, ?_⟩
  intro h
  rw [show (updateFileHashAsync entOther (.jstr uuidA) (.jstr hashA) (.jint 5) uuidB "x").1
        = .error .enotdirfile from rfl] at h
  exact XErr.noConfusion (Except.error.inj h)

/-- Witness for C1's theorem at a concrete input: a commit against `entStale`
with the stale htime 100 is rejected with ETIMESTAMP. -/
theorem updateFileHash_spec_witness :
    updateFileHashAsync entStale (.jstr uuidA) (.jstr hashA) (.jint 100) uuidB "x"
      = (.error .etimestamp, entDrop) :=
  (((updateFileHash_spec entStale (.jstr uuidA) (.jstr hashA) (.jint 100) uuidB
      "x").2.2.2.1 rfl rfl attrDrop entDrop rfl).2.1 rfl (by decide))

/-- Witness for C2's theorem at a concrete input: reading `entStale` drops the
stale pair and returns a summary with no hash. -/
theorem readXstat_hash_trustworthy_witness :
    (∀ v, xstatDrop.hash = some v ↔
      ∃ a, entStale.blob = .attr a ∧ validHashPair a entStale.mtime = true ∧
        v = getProp a.hash) ∧
    (∀ a, entStale.blob = .attr a →
      (a.hash.isSome = true ∨ a.htime.isSome = true) →
      validHashPair a entStale.mtime = false →
      ∃ a1, entDrop.blob = .attr a1 ∧ a1.hash = none ∧ a1.htime = none) :=
  readXstat_hash_trustworthy entStale uuidA "x" xstatDrop entDrop rfl rfl

/-! ### Tree lemmas and claims -/

theorem mapGet_mapSet_self {κ α : Type} [DecidableEq κ] (l : List (κ × α)) (k : κ) (v : α) :
    mapGet (mapSet l k v) k = some v := by
  induction l with
  | nil => simp [mapGet, mapSet]
  | cons h t ih =>
    obtain ⟨k1, v1⟩ := h
    by_cases hk : k1 = k
    · simp [mapSet, mapGet, hk]
    · simpa [mapSet, mapGet, hk] using ih

theorem mapGet_mapSet_ne {κ α : Type} [DecidableEq κ] (l : List (κ × α)) (k k2 : κ) (v : α)
    (hne : k ≠ k2) : mapGet (mapSet l k v) k2 = mapGet l k2 := by
  induction l with
  | nil => simp [mapGet, mapSet, hne]
  | cons h t ih =>
    obtain ⟨k1, v1⟩ := h
    by_cases hk : k1 = k <;> by_cases hk2 : k1 = k2 <;>
      simp_all [mapSet, mapGet]

/-- What a successful `attach` guarantees: the node existed detached, the
parent reference was a live node, and afterwards the node carries the parent
link and its uuid resolves to it through the index — the structural link and
the index insert happen in the same uninterruptible step. -/
theorem attach_ok {s : FileData} {nid : Nat} {parentRef : Option Nat} {s2 : FileData}
    (h : attach s nid parentRef = (none, s2)) :
    ∃ nd pid, getN s nid = some nd ∧ nd.parent = none ∧ parentRef = some pid ∧
      (∃ nd2, getN s2 nid = some nd2 ∧ nd2.uuid = nd.uuid ∧ nd2.kind = nd.kind ∧
        nd2.parent = some pid) ∧
      findNodeByUUID s2 nd.uuid = some nid := by
  unfold attach at h
  rcases hn : mapGet s.nodes nid with _ | nd <;> rw [hn] at h <;> simp only [] at h
  · exact absurd h (by simp)
  · by_cases hp : nd.parent.isSome = true
    · rw [if_pos hp] at h
      exact absurd h (by simp)
    · rw [if_neg hp] at h
      rcases parentRef with _ | pid <;> simp only [] at h
      · exact absurd h (by simp)
      · rcases hq : mapGet s.nodes pid with _ | pd <;> rw [hq] at h <;> simp only [] at h
        · exact absurd h (by simp)
        · by_cases hpn : pid = nid
          · subst hpn
            rw [show mapGet (setN s pid { nd with parent := some pid }).nodes pid
                  = some { nd with parent := some pid } from mapGet_mapSet_self ..] at h
            simp only [Prod.mk.injEq, true_and] at h
            refine ⟨nd, pid, hn, by simpa using hp, rfl, ?_, ?_⟩
            · refine ⟨{ { nd with parent := some pid } with
                  children := { nd with parent := some pid }.children ++ [pid] },
                ?_, rfl, rfl, rfl⟩
              rw [← h]
              exact mapGet_mapSet_self ..
            · rw [← h]
              exact mapGet_mapSet_self ..
          · rw [show mapGet (setN s nid { nd with parent := some pid }).nodes pid
                  = mapGet s.nodes pid from mapGet_mapSet_ne _ _ _ _ (by omega)] at h
            rw [hq] at h
            simp only [Prod.mk.injEq, true_and] at h
            refine ⟨nd, pid, hn, by simpa using hp, rfl, ?_, ?_⟩
            · refine ⟨{ nd with parent := some pid }, ?_, rfl, rfl, rfl⟩
              rw [← h]
              show mapGet (mapSet (mapSet s.nodes nid _) pid _) nid = _
              rw [mapGet_mapSet_ne _ _ _ _ (by omega)]
              exact mapGet_mapSet_self ..
            · rw [← h]
              exact mapGet_mapSet_self ..

/-- C6: attach fails with the node already attached, or with a parent that is
not a node (either not a node value at all or not a live node object), and in
each failure the state comes back exactly as it was — no parent link, no
child-collection entry, no index entry; detach fails whenever the node is not
currently attached. -/
theorem attach_detach_guards (s : FileData) (nid : Nat) (parentRef : Option Nat)
    (nd : NodeRec) (h : getN s nid = some nd) :
    (nd.parent.isSome = true → attach s nid parentRef = (some .alreadyAttached, s)) ∧
    (nd.parent.isSome = false → parentRef = none →
      attach s nid parentRef = (some .notDirNode, s)) ∧
    (nd.parent.isSome = false → ∀ pid, parentRef = some pid → getN s pid = none →
      attach s nid parentRef = (some .notDirNode, s)) ∧
    (nd.parent = none → (detach s nid).1 = some .alreadyDetached) := by
  refine ⟨?_, ?_, ?_, ?_⟩
  · intro hp
    unfold attach
    rw [show mapGet s.nodes nid = some nd from h]
    simp only [if_pos hp]
  · intro hp hr
    subst hr
    unfold attach
    rw [show mapGet s.nodes nid = some nd from h]
    simp [hp]
  · intro hp pid hr hq
    subst hr
    unfold attach
    rw [show mapGet s.nodes nid = some nd from h]
    simp [hp, show mapGet s.nodes pid = none from hq]
  · intro hp
    unfold detach
    rw [show mapGet s.nodes nid = some nd from h]
    simp only [hp]

/-- C10: createNode builds and attaches a node only for a summary typed
exactly 'directory' or 'file'; any other type throws before anything is
constructed or attached, leaving the state (tree and index) unchanged; on
success the new node carries the summary's uuid and type, hangs under the
given parent, resolves through the index, and that uuid is returned. -/
theorem createNode_spec (s : FileData) (parentRef : Option Nat) (x : TXstat)
    (freshId : Nat) :
    (x.type ≠ "directory" → x.type ≠ "file" →
      createNode s parentRef x freshId = (.error .badXstat, s)) ∧
    (∀ u s2, createNode s parentRef x freshId = (.ok u, s2) →
      u = x.uuid ∧
      ∃ nd2 pid, parentRef = some pid ∧ getN s2 freshId = some nd2 ∧
        nd2.uuid = x.uuid ∧ nd2.kind = x.type ∧ nd2.parent = some pid ∧
        findNodeByUUID s2 x.uuid = some freshId) := by
  constructor
  · intro hd hf
    unfold createNode
    rw [if_neg (by simp [hd, hf])]
  · intro u s2 hc
    unfold createNode at hc
    by_cases ht : x.type = "directory" ∨ x.type = "file"
    · rw [if_pos ht] at hc
      simp only [] at hc
      rcases ha : attach { s with nodes := mapSet s.nodes freshId (mkChildNode x) }
          freshId parentRef with ⟨oe, s3⟩
      rw [ha] at hc
      rcases oe with _ | e
      · simp only [Prod.mk.injEq, Except.ok.injEq] at hc
        obtain ⟨rfl, rfl⟩ := hc
        obtain ⟨nd, pid, hgn, hpn, hpr, ⟨nd2, hg2, hu2, hk2, hp2⟩, hfind⟩ := attach_ok ha
        have hnd : nd = mkChildNode x := by
          have hself := mapGet_mapSet_self s.nodes freshId (mkChildNode x)
          rw [show getN { s with nodes := mapSet s.nodes freshId (mkChildNode x) } freshId
                = mapGet (mapSet s.nodes freshId (mkChildNode x)) freshId from rfl,
              hself] at hgn
          exact (Option.some.inj hgn).symm
        subst hnd
        exact ⟨rfl, nd2, pid, hpr, hg2, hu2, hk2, hp2, hfind⟩
      · simp at hc
    · rw [if_neg ht] at hc
      simp at hc

/-- C4: for every node whose owning drive resolves, the permission matrix —
private: owner-only for read, write and share; public: read for the union of
write-list and read-list, write for the write-list, share per the
share-allowed flag; any other drive type is a reported error on all three
predicates. -/
theorem userPermitted_matrix (f : Nat) (s : FileData) (u : String) (nid : Nat)
    (d : Drive) (h : getDrive f s nid = .ok (some d)) :
    (d.type = "private" →
      userPermittedToRead f s u nid = .ok (decide (u = d.owner)) ∧
      userPermittedToWrite f s u nid = .ok (decide (u = d.owner)) ∧
      userPermittedToShare f s u nid = .ok (decide (u = d.owner))) ∧
    (d.type = "public" →
      userPermittedToRead f s u nid
        = .ok (d.writelist.contains u || d.readlist.contains u) ∧
      userPermittedToWrite f s u nid = .ok (d.writelist.contains u) ∧
      userPermittedToShare f s u nid = .ok d.shareAllowed) ∧
    (d.type ≠ "private" → d.type ≠ "public" →
      userPermittedToRead f s u nid = .error .invalidDriveType ∧
      userPermittedToWrite f s u nid = .error .invalidDriveType ∧
      userPermittedToShare f s u nid = .error .invalidDriveType) := by
  unfold userPermittedToRead userPermittedToWrite userPermittedToShare
  rw [h]
  refine ⟨fun hp => ?_, fun hp => ?_, fun hp hq => ?_⟩
  · simp [hp]
  · simp [hp]
  · simp [if_neg hp, if_neg hq]

/-! ### Concrete tree instances -/

/-- A private drive descriptor owned by alice. -/
def drvPriv : Drive :=
  { uuid := "u1", type := "private", owner := "alice", writelist := [],
    readlist := [], shareAllowed := false, ref := "home" }

/-- Root 0 with one drive node 1 (uuid "u1") holding two file children:
node 2 (uuid "u2") and node 3 (uuid "u3"); the index resolves all three. -/
def sTree : FileData :=
  { rootId := 0,
    nodes := [
      (0, { uuid := "r", kind := "root", parent := none, children := [1],
            drive := none }),
      (1, { uuid := "u1", kind := "drive", parent := some 0, children := [2, 3],
            drive := some drvPriv }),
      (2, { uuid := "u2", kind := "file", parent := some 1, children := [],
            drive := none }),
      (3, { uuid := "u3", kind := "file", parent := some 1, children := [],
            drive := none })],
    uuidMap := [("u1", 1), ("u2", 2), ("u3", 3)] }

/-- The drive node record of `sTree`. -/
def nodeOne : NodeRec :=
  { uuid := "u1", kind := "drive", parent := some 0, children := [2, 3],
    drive := some drvPriv }

/-- C3 is violated by the code: deleting the drive node (two children)
completes without error, removes the drive and the first child from the
index, but leaves the second child resolvable — `postVisit` detaches the
first child while `forEach` walks the live children array, the splice shifts
the second child to the vacated index, and `forEach`'s existence check then
skips it. -/
theorem deleteNode_skips_second_child :
    (deleteNode 10 sTree 1).1 = none ∧
    findNodeByUUID (deleteNode 10 sTree 1).2 "u1" = none ∧
    findNodeByUUID (deleteNode 10 sTree 1).2 "u2" = none ∧
    findNodeByUUID (deleteNode 10 sTree 1).2 "u3" = some 3 := by decide

/-- C7 is violated by the code: `deleteDrives` reads the misspelled property
`getChilren` of the root node, which is `undefined`, and calling `.filter` on
it raises a TypeError on every drives-deleted notification, before any drive
node is looked at or detached; the state is untouched. -/
theorem deleteDrives_always_typeError (s : FileData) (drives : List Drive) :
    deleteDrives s drives = (some .typeError, s) := rfl

/-- Witness for C4's theorem at a concrete input: on the private drive of
`sTree`, resolved from file node 2, alice may read/write/share and bob may
not. -/
theorem userPermitted_matrix_witness :
    userPermittedToRead 3 sTree "alice" 2 = .ok true ∧
    userPermittedToWrite 3 sTree "alice" 2 = .ok true ∧
    userPermittedToShare 3 sTree "alice" 2 = .ok true ∧
    userPermittedToRead 3 sTree "bob" 2 = .ok false ∧
    userPermittedToWrite 3 sTree "bob" 2 = .ok false ∧
    userPermittedToShare 3 sTree "bob" 2 = .ok false := by
  have ha := (userPermitted_matrix 3 sTree "alice" 2 drvPriv rfl).1 rfl
  have hb := (userPermitted_matrix 3 sTree "bob" 2 drvPriv rfl).1 rfl
  refine ⟨?_, ?_, ?_, ?_, ?_, ?_⟩
  · rw [ha.1]; rfl
  · rw [ha.2.1]; rfl
  · rw [ha.2.2]; rfl
  · rw [hb.1]; rfl
  · rw [hb.2.1]; rfl
  · rw [hb.2.2]; rfl

/-- Witness for C6's theorem at a concrete input: attaching the already
attached drive node of `sTree` fails and leaves the state untouched, and the
detached root reports already-detached on detach. -/
theorem attach_detach_guards_witness :
    attach sTree 1 (some 0) = (some .alreadyAttached, sTree) :=
  (attach_detach_guards sTree 1 (some 0) nodeOne rfl).1 rfl

/-- The state after creating a file node 4 under the drive node of `sTree`. -/
def sTreeAfter : FileData :=
  (createNode sTree (some 1) { uuid := "u4", type := "file" } 4).2

/-- Witness for C10's theorem at a concrete input: creating a file summary
under the drive node returns its uuid and the node resolves via the index. -/
theorem createNode_spec_witness :
    "u4" = "u4" ∧
    ∃ nd2 pid, (some 1 : Option Nat) = some pid ∧ getN sTreeAfter 4 = some nd2 ∧
      nd2.uuid = "u4" ∧ nd2.kind = "file" ∧ nd2.parent = some pid ∧
      findNodeByUUID sTreeAfter "u4" = some 4 :=
  (createNode_spec sTree (some 1) { uuid := "u4", type := "file" } 4).2
    "u4" sTreeAfter rfl

/-! ### The full blob model: JSON.parse results that are not objects

`Blob` covers the attribute states the claims above range over: absent,
unparseable, or parsed to an object.  `JSON.parse` can however also succeed
yielding a non-object — an array (`"[]"`) or a primitive (`"42"`, `"\"x\""`,
`"true"`, `"null"`, ...) — and these are reachable on-disk corruption states.
On them the source behaves differently: a parsed array is truthy, so the
repair branch runs and assigns `uuid` (and `magic`) as named properties in
memory, but `JSON.stringify` of an array serializes indexed elements only, so
the dirty write at xstat.js line 105 stores the array unchanged and the
repair is silently lost; a truthy primitive is also truthy, and the strict-mode
assignment `attr.uuid = UUID.v4()` at line 65 on a primitive raises a
TypeError; a falsy parse result (`null`, `false`, `0`, `""`) fails the
`if (attr)` test at line 61 and is treated as "no record", which heals
normally.  `BlobX`/`EntryX` extend the model with these states; the claims
about self-healing (C5) and identity stability (C9) are settled against this
full model. -/

/-- The persisted blob, full model: absent, unparseable, or parsed to an
object, an array, a string, an integer number, a non-integer number (tagged;
never zero, hence always truthy), a boolean, or null. -/
inductive BlobX where
  | absent
  | corrupt
  | attr (a : Attr)
  | arr
  | pstr (s : String)
  | pnum (n : Int)
  | pfrac (tag : Nat)
  | pbool (b : Bool)
  | pnull
deriving DecidableEq, Repr

/-- JS truthiness of a parsed primitive: `""`, `0`, `false` and `null` are
falsy, every other primitive truthy.  (Objects and arrays are matched by their
own arms in `readXstatInnerX` and never reach this test; `absent`/`corrupt`
mean the variable stayed `undefined`, falsy.) -/
def truthyPrim : BlobX → Bool
  | .pstr s => s != ""
  | .pnum n => n != 0
  | .pfrac _ => true
  | .pbool b => b
  | _ => false

/-- A parse result that is falsy: exactly `null`, `false`, `0` and `""`. -/
def parsesFalsy : BlobX → Bool
  | .pstr s => s == ""
  | .pnum n => n == 0
  | .pbool b => !b
  | .pnull => true
  | _ => false

/-- One filesystem entry over the full blob model. -/
structure EntryX where
  kind : FsKind
  name : String
  mtime : Int
  size : Int
  blob : BlobX
deriving DecidableEq, Repr

/-- The core of `readXstatAsync` (xstat.js lines 44-105) over the full blob
model.  The object arm is identical to `readXstatInner`'s.  The array arm:
the repair assigns a fresh uuid (and, for files, magic) on the array in
memory — `isUUID(undefined)` is false, so the record is dirty — but the
write-back stringifies the array, which drops named properties, so the stored
blob stays the array and the repair is lost; the summary is built from the
in-memory values.  A truthy primitive raises a TypeError at the strict-mode
`attr.uuid = UUID.v4()` assignment, before anything is written.  A falsy
parse result fails `if (attr)` and heals like a missing record. -/
def readXstatInnerX (e : EntryX) (fresh : String) (stdout : String) :
    Except XErr (Attr × EntryX) :=
  if e.kind = .other then .error .enotdirfile
  else
    match e.blob with
    | .attr a =>
      let p := stepLegacy (stepMagic (decide (e.kind = .file)) stdout
                 (stepHash (decide (e.kind = .file)) e.mtime (stepUuid fresh (false, a))))
      .ok (p.2, if p.1 then { e with blob := .attr p.2 } else e)
    | .arr =>
      .ok ({ uuid := some (.jstr fresh), hash := none, htime := none,
             magic := if e.kind = .file then some (parseMagic stdout) else none,
             owner := false, writelist := false, readlist := false }, e)
    | b =>
      if truthyPrim b then .error .jsTypeError
      else
        let a : Attr :=
          { uuid := some (.jstr fresh), hash := none, htime := none,
            magic := if e.kind = .file then some (parseMagic stdout) else none,
            owner := false, writelist := false, readlist := false }
        .ok (a, { e with blob := .attr a })

/-- `readXstatAsync` (xstat.js lines 44-132) over the full blob model;
the summary construction is the same as `readXstatAsync`'s. -/
def readXstatAsyncX (e : EntryX) (fresh : String) (stdout : String) :
    Except XErr (Xstat × EntryX) :=
  match readXstatInnerX e fresh stdout with
  | .error x => .error x
  | .ok (a, e1) =>
    match e1.kind with
    | .dir =>
      .ok ({ uuid := getProp a.uuid, type := "directory", name := e1.name,
             mtime := e1.mtime, size := none, magic := none, hash := none }, e1)
    | .file =>
      .ok ({ uuid := getProp a.uuid, type := "file", name := e1.name,
             mtime := e1.mtime, size := some e1.size,
             magic := some (getProp a.magic),
             hash := if truthy (getProp a.hash) then some (getProp a.hash) else none }, e1)
    | .other =>
      -- unreachable: the inner read already rejected this kind
      .error .enotdirfile

set_option maxHeartbeats 1000000 in
theorem readXstatInnerX_file (e : EntryX) (a : Attr) (fresh stdout : String)
    (hk : e.kind = .file) (hb : e.blob = .attr a) :
    ∃ a4, readXstatInnerX e fresh stdout = .ok (a4, { e with blob := .attr a4 }) ∧
      a4.uuid = (if isUUIDv (getProp a.uuid) then a.uuid else some (.jstr fresh)) ∧
      a4.hash = (if validHashPair a e.mtime then a.hash else none) ∧
      a4.htime = (if validHashPair a e.mtime then a.htime else none) ∧
      a4.magic = (if isMagicUpToDate (getProp a.magic) then a.magic
                  else some (parseMagic stdout)) ∧
      a4.owner = false ∧ a4.writelist = false ∧ a4.readlist = false := by
  obtain ⟨k, nm, mt, sz, bl⟩ := e
  obtain ⟨u, hs, ht, mg, ow, wl, rl⟩ := a
  simp only at hk hb
  subst hk
  subst hb
  simp only [readXstatInnerX, stepUuid, stepHash, stepMagic, stepLegacy, validHashPair]
  split_ifs <;> simp_all

set_option maxHeartbeats 1000000 in
theorem readXstatInnerX_dir (e : EntryX) (a : Attr) (fresh stdout : String)
    (hk : e.kind = .dir) (hb : e.blob = .attr a) :
    ∃ a4, readXstatInnerX e fresh stdout = .ok (a4, { e with blob := .attr a4 }) ∧
      a4.uuid = (if isUUIDv (getProp a.uuid) then a.uuid else some (.jstr fresh)) ∧
      a4.hash = a.hash ∧ a4.htime = a.htime ∧ a4.magic = a.magic ∧
      a4.owner = false ∧ a4.writelist = false ∧ a4.readlist = false := by
  obtain ⟨k, nm, mt, sz, bl⟩ := e
  obtain ⟨u, hs, ht, mg, ow, wl, rl⟩ := a
  simp only at hk hb
  subst hk
  subst hb
  simp only [readXstatInnerX, stepUuid, stepHash, stepMagic, stepLegacy, validHashPair,
    decide_eq_true_eq, reduceCtorEq, decide_False, decide_True, Bool.false_and, Bool.and_false,
    if_false, Bool.or_false, Bool.false_or]
  split_ifs <;> simp_all

theorem readXstatInnerX_norec (e : EntryX) (fresh stdout : String)
    (hk : e.kind ≠ .other)
    (hb : e.blob = .absent ∨ e.blob = .corrupt ∨ parsesFalsy e.blob = true) :
    ∃ a0, readXstatInnerX e fresh stdout = .ok (a0, { e with blob := .attr a0 }) ∧
      a0.uuid = some (.jstr fresh) ∧ a0.hash = none ∧ a0.htime = none ∧
      a0.magic = (if e.kind = .file then some (parseMagic stdout) else none) ∧
      a0.owner = false ∧ a0.writelist = false ∧ a0.readlist = false := by
  refine ⟨{ uuid := some (.jstr fresh), hash := none, htime := none,
            magic := if e.kind = .file then some (parseMagic stdout) else none,
            owner := false, writelist := false, readlist := false },
          ?_, rfl, rfl, rfl, rfl, rfl, rfl, rfl⟩
  rcases hb with hb | hb | hb
  · unfold readXstatInnerX
    rw [if_neg hk, hb]
    rfl
  · unfold readXstatInnerX
    rw [if_neg hk, hb]
    rfl
  · unfold readXstatInnerX
    rw [if_neg hk]
    rcases hbl : e.blob with _ | _ | a | _ | s | n | t | b | _ <;> rw [hbl] at hb
    case absent => rfl
    case corrupt => rfl
    case attr => simp [parsesFalsy] at hb
    case arr => simp [parsesFalsy] at hb
    case pstr =>
      have hs : s = "" := by simpa [parsesFalsy] using hb
      subst hs
      rfl
    case pnum =>
      have hn : n = 0 := by simpa [parsesFalsy] using hb
      subst hn
      rfl
    case pfrac => simp [parsesFalsy] at hb
    case pbool =>
      have hbb : b = false := by simpa [parsesFalsy] using hb
      subst hbb
      rfl
    case pnull => rfl

/-- The array arm of `readXstatInnerX`, explicit: a fresh uuid (and magic for
files) in the returned in-memory attr, but the entry — the persisted state —
comes back untouched. -/
theorem readXstatInnerX_arr (e : EntryX) (fresh stdout : String)
    (hk : e.kind ≠ .other) (hb : e.blob = .arr) :
    readXstatInnerX e fresh stdout =
      .ok ({ uuid := some (.jstr fresh), hash := none, htime := none,
             magic := if e.kind = .file then some (parseMagic stdout) else none,
             owner := false, writelist := false, readlist := false }, e) := by
  unfold readXstatInnerX
  rw [if_neg hk, hb]

/-- The truthy-primitive arm of `readXstatInnerX`, explicit: a TypeError. -/
theorem readXstatInnerX_prim (e : EntryX) (fresh stdout : String)
    (hk : e.kind ≠ .other) (hp : truthyPrim e.blob = true) :
    readXstatInnerX e fresh stdout = .error .jsTypeError := by
  unfold readXstatInnerX
  rw [if_neg hk]
  rcases hbl : e.blob with _ | _ | a | _ | s | n | t | b | _ <;> rw [hbl] at hp <;>
    simp_all [truthyPrim]

theorem readXstatInnerX_normal {e : EntryX} {fresh stdout : String} {a : Attr}
    {e1 : EntryX}
    (hu : isUUID fresh = true)
    (hb : e.blob = .absent ∨ e.blob = .corrupt ∨ parsesFalsy e.blob = true ∨
          (∃ a0, e.blob = .attr a0))
    (h : readXstatInnerX e fresh stdout = .ok (a, e1)) :
    NormalAttr a e.kind e.mtime ∧ e1 = { e with blob := .attr a } := by
  have hk : e.kind ≠ .other := by
    intro ho
    unfold readXstatInnerX at h
    rw [if_pos ho] at h
    exact Except.noConfusion h
  rcases hb with hb | hb | hb | ⟨a0, hbl⟩
  case inl | inr.inl | inr.inr.inl =>
    obtain ⟨b, hbn, h1, h2, h3, h4, h5, h6, h7⟩ :=
      readXstatInnerX_norec e fresh stdout hk (by simp [hb])
    rw [hbn] at h
    simp only [Except.ok.injEq, Prod.mk.injEq] at h
    obtain ⟨rfl, rfl⟩ := h
    refine ⟨⟨?_, ?_, ?_, h5, h6, h7⟩, rfl⟩
    · simp [h1, getProp, isUUIDv, hu]
    · intro _; exact Or.inl ⟨h2, h3⟩
    · intro hf; simp [h4, hf, getProp, parseMagic_upToDate]
  case inr.inr.inr =>
    cases hfd : e.kind
    case other => exact absurd hfd hk
    case dir =>
      obtain ⟨b, hbn, h1, h2, h3, h4, h5, h6, h7⟩ :=
        readXstatInnerX_dir e a0 fresh stdout hfd hbl
      rw [hbn] at h
      simp only [Except.ok.injEq, Prod.mk.injEq] at h
      obtain ⟨rfl, rfl⟩ := h
      refine ⟨⟨?_, ?_, ?_, h5, h6, h7⟩, by rw [hfd]⟩
      · rw [h1]; split_ifs with hvv
        · exact hvv
        · simp [getProp, isUUIDv, hu]
      · intro hf; exact absurd hf (by simp)
      · intro hf; exact absurd hf (by simp)
    case file =>
      obtain ⟨b, hbn, h1, h2, h3, h4, h5, h6, h7⟩ :=
        readXstatInnerX_file e a0 fresh stdout hfd hbl
      rw [hbn] at h
      simp only [Except.ok.injEq, Prod.mk.injEq] at h
      obtain ⟨rfl, rfl⟩ := h
      refine ⟨⟨?_, ?_, ?_, h5, h6, h7⟩, by rw [hfd]⟩
      · rw [h1]; split_ifs with hvv
        · exact hvv
        · simp [getProp, isUUIDv, hu]
      · intro _
        by_cases hv : validHashPair a0 e.mtime = true
        · right
          have hbh : b.hash = a0.hash := by rw [h2, if_pos hv]
          have hbt : b.htime = a0.htime := by rw [h3, if_pos hv]
          rw [validHashPair_congr e.mtime hbh hbt]
          exact hv
        · left
          exact ⟨by rw [h2, if_neg hv], by rw [h3, if_neg hv]⟩
      · intro _
        by_cases hm : isMagicUpToDate (getProp a0.magic) = true
        · rw [h4, if_pos hm]; exact hm
        · rw [h4, if_neg hm]; simp [getProp, parseMagic_upToDate]

set_option maxHeartbeats 1000000 in
theorem readXstatInnerX_clean (e : EntryX) (f s : String) (a : Attr)
    (hk : e.kind ≠ .other) (hb : e.blob = .attr a) (hn : NormalAttr a e.kind e.mtime) :
    readXstatInnerX e f s = .ok (a, e) := by
  obtain ⟨hn1, hn2, hn3, hn4, hn5, hn6⟩ := hn
  obtain ⟨k, nm, mt, sz, bl⟩ := e
  simp only at hb hk hn1 hn2 hn3 ⊢
  subst hb
  cases k
  case other => exact absurd rfl hk
  case dir =>
    simp only [readXstatInnerX, stepUuid, stepHash, stepMagic, stepLegacy]
    split_ifs <;> simp_all
  case file =>
    rcases hn2 rfl with ⟨hh, ht⟩ | hv
    · simp only [readXstatInnerX, stepUuid, stepHash, stepMagic, stepLegacy]
      split_ifs <;> simp_all
    · simp only [readXstatInnerX, stepUuid, stepHash, stepMagic, stepLegacy]
      split_ifs <;> simp_all

theorem readXstatAsyncX_of_inner_dir {e : EntryX} {f s : String} {a : Attr} {e1 : EntryX}
    (h : readXstatInnerX e f s = .ok (a, e1)) (hk : e1.kind = .dir) :
    readXstatAsyncX e f s =
      .ok ({ uuid := getProp a.uuid, type := "directory", name := e1.name,
             mtime := e1.mtime, size := none, magic := none, hash := none }, e1) := by
  unfold readXstatAsyncX
  rw [h]
  simp only [hk]

theorem readXstatAsyncX_of_inner_file {e : EntryX} {f s : String} {a : Attr} {e1 : EntryX}
    (h : readXstatInnerX e f s = .ok (a, e1)) (hk : e1.kind = .file) :
    readXstatAsyncX e f s =
      .ok ({ uuid := getProp a.uuid, type := "file", name := e1.name,
             mtime := e1.mtime, size := some e1.size,
             magic := some (getProp a.magic),
             hash := if truthy (getProp a.hash) then some (getProp a.hash) else none }, e1) := by
  unfold readXstatAsyncX
  rw [h]
  simp only [hk]

theorem readXstatAsyncX_ok_inner {e : EntryX} {f s : String} {x : Xstat} {e1 : EntryX}
    (h : readXstatAsyncX e f s = .ok (x, e1)) :
    ∃ a, readXstatInnerX e f s = .ok (a, e1) ∧ x.uuid = getProp a.uuid := by
  unfold readXstatAsyncX at h
  rcases hi : readXstatInnerX e f s with _ | ⟨a, e2⟩ <;> rw [hi] at h
  · exact Except.noConfusion h
  · rcases hk : e2.kind with _ | _ | _ <;> simp only [hk] at h <;>
      [skip; skip; exact Except.noConfusion h] <;>
      simp only [Except.ok.injEq, Prod.mk.injEq] at h <;>
      obtain ⟨hx, he⟩ := h <;> exact ⟨a, by rw [he], by rw [← hx]⟩

/-- C5 (amended): for a directory or regular file, a missing attribute blob,
an unparseable blob, one that parses to a falsy value, or an object record
with a missing or malformed uuid results in a fresh uuid generated and the
repaired record persisted before the call returns, without an error; but a
blob that parses to an array yields a fresh uuid in the returned summary
while the write-back silently loses the repair (the persisted state is
untouched), and a blob that parses to a truthy primitive raises a TypeError. -/
theorem readXstatX_selfHealing (e : EntryX) (fresh stdout : String)
    (hk : e.kind ≠ .other) :
    ((e.blob = .absent ∨ e.blob = .corrupt ∨ parsesFalsy e.blob = true ∨
        (∃ a, e.blob = .attr a)) →
      ∃ x e1, readXstatAsyncX e fresh stdout = .ok (x, e1)) ∧
    ((e.blob = .absent ∨ e.blob = .corrupt ∨ parsesFalsy e.blob = true ∨
        (∃ a, e.blob = .attr a ∧ isUUIDv (getProp a.uuid) = false)) →
      ∃ x e1 a1, readXstatAsyncX e fresh stdout = .ok (x, e1) ∧
        x.uuid = .jstr fresh ∧ e1.blob = .attr a1 ∧ a1.uuid = some (.jstr fresh)) ∧
    (e.blob = .arr →
      ∃ x, readXstatAsyncX e fresh stdout = .ok (x, e) ∧ x.uuid = .jstr fresh) ∧
    (truthyPrim e.blob = true →
      readXstatAsyncX e fresh stdout = .error .jsTypeError) := by
  refine ⟨?_, ?_, ?_, ?_⟩
  · intro hb
    rcases hb with hb | hb | hb | ⟨a0, hbl⟩
    case inl | inr.inl | inr.inr.inl =>
      obtain ⟨b, hbn, h1, h2, h3, h4, h5, h6, h7⟩ :=
        readXstatInnerX_norec e fresh stdout hk (by simp [hb])
      cases hfd : e.kind
      case other => exact absurd hfd hk
      case dir => exact ⟨_, _, readXstatAsyncX_of_inner_dir hbn hfd⟩
      case file => exact ⟨_, _, readXstatAsyncX_of_inner_file hbn hfd⟩
    case _ =>
      cases hfd : e.kind
      case other => exact absurd hfd hk
      case dir =>
        obtain ⟨b, hbn, -, -, -, -, -, -, -⟩ := readXstatInnerX_dir e a0 fresh stdout hfd hbl
        exact ⟨_, _, readXstatAsyncX_of_inner_dir hbn hfd⟩
      case file =>
        obtain ⟨b, hbn, -, -, -, -, -, -, -⟩ := readXstatInnerX_file e a0 fresh stdout hfd hbl
        exact ⟨_, _, readXstatAsyncX_of_inner_file hbn hfd⟩
  · intro hb
    rcases hb with hb | hb | hb | ⟨a0, hbl, hbad⟩
    case inl | inr.inl | inr.inr.inl =>
      obtain ⟨b, hbn, h1, h2, h3, h4, h5, h6, h7⟩ :=
        readXstatInnerX_norec e fresh stdout hk (by simp [hb])
      cases hfd : e.kind
      case other => exact absurd hfd hk
      case dir =>
        exact ⟨_, _, b, readXstatAsyncX_of_inner_dir hbn hfd, by rw [h1]; rfl, rfl, h1⟩
      case file =>
        exact ⟨_, _, b, readXstatAsyncX_of_inner_file hbn hfd, by rw [h1]; rfl, rfl, h1⟩
    case _ =>
      cases hfd : e.kind
      case other => exact absurd hfd hk
      case dir =>
        obtain ⟨b, hbn, h1, -, -, -, -, -, -⟩ := readXstatInnerX_dir e a0 fresh stdout hfd hbl
        have hbu : b.uuid = some (.jstr fresh) := by rw [h1, if_neg (by rw [hbad]; simp)]
        exact ⟨_, _, b, readXstatAsyncX_of_inner_dir hbn hfd, by rw [hbu]; rfl, rfl, hbu⟩
      case file =>
        obtain ⟨b, hbn, h1, -, -, -, -, -, -⟩ := readXstatInnerX_file e a0 fresh stdout hfd hbl
        have hbu : b.uuid = some (.jstr fresh) := by rw [h1, if_neg (by rw [hbad]; simp)]
        exact ⟨_, _, b, readXstatAsyncX_of_inner_file hbn hfd, by rw [hbu]; rfl, rfl, hbu⟩
  · intro hb
    have hi := readXstatInnerX_arr e fresh stdout hk hb
    cases hfd : e.kind
    case other => exact absurd hfd hk
    case dir => exact ⟨_, readXstatAsyncX_of_inner_dir hi hfd, rfl⟩
    case file => exact ⟨_, readXstatAsyncX_of_inner_file hi hfd, rfl⟩
  · intro hp
    have hi := readXstatInnerX_prim e fresh stdout hk hp
    unfold readXstatAsyncX
    rw [hi]

/-- C9 (amended): for a directory or regular file whose attribute blob is
absent, unparseable, parses to a falsy value, or parses to an object, reading
metadata twice for the untouched path yields the same uuid both times, the
second read reading back the record the first one persisted. -/
theorem readXstatX_identity_stable (e : EntryX) (f1 s1 f2 s2 : String)
    (x1 x2 : Xstat) (e1 e2 : EntryX)
    (hu : isUUID f1 = true)
    (hb : e.blob = .absent ∨ e.blob = .corrupt ∨ parsesFalsy e.blob = true ∨
          (∃ a0, e.blob = .attr a0))
    (h1 : readXstatAsyncX e f1 s1 = .ok (x1, e1))
    (h2 : readXstatAsyncX e1 f2 s2 = .ok (x2, e2)) :
    x2.uuid = x1.uuid ∧ e2 = e1 := by
  obtain ⟨a, hi, hx1⟩ := readXstatAsyncX_ok_inner h1
  obtain ⟨hn, he1⟩ := readXstatInnerX_normal hu hb hi
  have hk : e.kind ≠ .other := by
    intro ho
    unfold readXstatInnerX at hi
    rw [if_pos ho] at hi
    exact Except.noConfusion hi
  have hkk : e1.kind = e.kind := by rw [he1]
  have hmm : e1.mtime = e.mtime := by rw [he1]
  have hbb : e1.blob = .attr a := by rw [he1]
  have hclean : readXstatInnerX e1 f2 s2 = .ok (a, e1) :=
    readXstatInnerX_clean e1 f2 s2 a (by rw [hkk]; exact hk) hbb
      (by rw [hkk, hmm]; exact hn)
  obtain ⟨a2, hi2, hx2⟩ := readXstatAsyncX_ok_inner h2
  rw [hclean] at hi2
  simp only [Except.ok.injEq, Prod.mk.injEq] at hi2
  obtain ⟨ha2, he2⟩ := hi2
  refine ⟨?_, he2.symm⟩
  rw [hx2, ← ha2]
  exact hx1.symm

/-- A directory whose attribute blob is the JSON array `[]`. -/
def entArr : EntryX :=
  { kind := .dir, name := "d", mtime := 3, size := 0, blob := .arr }

/-- A directory whose attribute blob is the JSON number `42`. -/
def entPrim : EntryX :=
  { kind := .dir, name := "d", mtime := 3, size := 0, blob := .pnum 42 }

/-- The summary a read of `entArr` with fresh uuid `uuidA` returns. -/
def xstatArrA : Xstat :=
  { uuid := .jstr uuidA, type := "directory", name := "d", mtime := 3,
    size := none, magic := none, hash := none }

/-- The summary a read of `entArr` with fresh uuid `uuidB` returns. -/
def xstatArrB : Xstat :=
  { uuid := .jstr uuidB, type := "directory", name := "d", mtime := 3,
    size := none, magic := none, hash := none }

/-- C5 counterexample: on a blob that parses to the number 42 the read raises
a TypeError (the claim says no error is raised), and on a blob that parses to
an array the read returns the entry with the persisted state untouched — no
repaired record with the fresh uuid is persisted. -/
theorem readXstat_selfHealing_cex :
    readXstatAsyncX entPrim uuidA "x" = .error .jsTypeError ∧
    readXstatAsyncX entArr uuidA "x" = .ok (xstatArrA, entArr) ∧
    entArr.blob = .arr := ⟨rfl, rfl, rfl⟩

/-- C9 counterexample: two reads of the same untouched path whose blob parses
to an array return different uuids — each read generates a fresh uuid and
neither is persisted, so the second read does not read back the first one's. -/
theorem readXstat_identity_stable_cex :
    readXstatAsyncX entArr uuidA "x" = .ok (xstatArrA, entArr) ∧
    readXstatAsyncX entArr uuidB "y" = .ok (xstatArrB, entArr) ∧
    xstatArrA.uuid ≠ xstatArrB.uuid := ⟨rfl, rfl, by decide⟩

/-- A directory over the full blob model with no record yet. -/
def entXAbs : EntryX :=
  { kind := .dir, name := "d", mtime := 7, size := 0, blob := .absent }

/-- `entXAbs` with the record a first read creates (fresh uuid `uuidA`). -/
def entXAbs1 : EntryX := { entXAbs with blob := .attr attrC9 }

/-- Witness for C5's theorem at a concrete input: a directory with no record
heals (fresh persisted uuid, no error). -/
theorem readXstatX_selfHealing_witness :
    ((entXAbs.blob = .absent ∨ entXAbs.blob = .corrupt ∨
        parsesFalsy entXAbs.blob = true ∨ (∃ a, entXAbs.blob = .attr a)) →
      ∃ x e1, readXstatAsyncX entXAbs uuidA "x" = .ok (x, e1)) ∧
    ((entXAbs.blob = .absent ∨ entXAbs.blob = .corrupt ∨
        parsesFalsy entXAbs.blob = true ∨
        (∃ a, entXAbs.blob = .attr a ∧ isUUIDv (getProp a.uuid) = false)) →
      ∃ x e1 a1, readXstatAsyncX entXAbs uuidA "x" = .ok (x, e1) ∧
        x.uuid = .jstr uuidA ∧ e1.blob = .attr a1 ∧
        a1.uuid = some (.jstr uuidA)) ∧
    (entXAbs.blob = .arr →
      ∃ x, readXstatAsyncX entXAbs uuidA "x" = .ok (x, entXAbs) ∧
        x.uuid = .jstr uuidA) ∧
    (truthyPrim entXAbs.blob = true →
      readXstatAsyncX entXAbs uuidA "x" = .error .jsTypeError) :=
  readXstatX_selfHealing entXAbs uuidA "x" (by decide)

/-- Witness for C9's theorem at a concrete input: two successive reads of the
same untouched directory return the same uuid, the second reading back what
the first persisted. -/
theorem readXstatX_identity_stable_witness :
    xstatC9.uuid = xstatC9.uuid ∧ entXAbs1 = entXAbs1 :=
  readXstatX_identity_stable entXAbs uuidA "x" uuidB "y" xstatC9 xstatC9
    entXAbs1 entXAbs1 (by decide) (Or.inl rfl) rfl rfl

end Fruitmix
